import Mathlib

/-!
Verification of the Maestro timer-call-site profiler
(`scripts/performance-profiler.js`, plus the in-console variant embedded in
the debugging guide).

The JavaScript source is shallowly embedded below.  Strings are modelled as
lists of characters (`String.data`), JavaScript `Map`/`Set` as association
lists (insertion-ordered, as JS Maps are) and `Finset`, numbers appearing in
percentage arithmetic as rationals, and the process-global timer bindings as
an explicit record threaded through a small state machine.  Every definition
mirrors the corresponding source function; deviations from JS runtime detail
(for example, modelling IEEE floats by rationals) are noted at the definition.
-/

/-! ### Character classes

`isJsWs` models the JavaScript regular-expression class backslash-s (the
WhiteSpace and LineTerminator sets), and `isDigitChar` models the digit
class, as used by the call-site regular expressions in the profiler.
-/

def isJsWs (c : Char) : Bool :=
  c = ' ' || c = '\t' || c = '\n' || c = '\r' ||
  c = '\x0b' || c = '\x0c' || c = '\u00a0' || c = '\u1680' ||
  ('\u2000' ≤ c && c ≤ '\u200a') ||
  c = '\u2028' || c = '\u2029' || c = '\u202f' || c = '\u205f' ||
  c = '\u3000' || c = '\ufeff'

def isDigitChar (c : Char) : Bool :=
  '0' ≤ c && c ≤ '9'

/-! ### String helpers mirroring the JavaScript string methods used -/

/-- Model of `s.split(sep)` for a single-character separator (the profiler
splits on a newline and on a slash).  JS returns `[""]` on the empty
string, which the `[[]]` base case reproduces. -/
def splitOnChar (sep : Char) : List Char → List (List Char)
  | [] => [[]]
  | c :: rest =>
    if c = sep then [] :: splitOnChar sep rest
    else
      match splitOnChar sep rest with
      | [] => [[c]]
      | h :: t => (c :: h) :: t

/-- Model of `String.prototype.trim` (strips the same whitespace set from
both ends). -/
def jsTrim (cs : List Char) : List Char :=
  ((cs.dropWhile isJsWs).reverse.dropWhile isJsWs).reverse

/-- Model of `String.prototype.startsWith` for a literal pattern
(first argument is the pattern). -/
def listStartsWith : List Char → List Char → Bool
  | [], _ => true
  | _ :: _, [] => false
  | p :: ps, c :: cs => p = c && listStartsWith ps cs

/-- Model of `filePath.split('/').pop() || filePath` from
`extractCallSiteSignature` / `extractCallerInfo`: the last path segment,
falling back to the whole path when that segment is empty (the JS
logical-or treats the empty string as falsy; `pop` on the never-empty
result of `split` is its last element). -/
def jsBasename (p : List Char) : List Char :=
  match (splitOnChar '/' p).getLast? with
  | some l => if l.isEmpty then p else l
  | none => p

/-- Model of `path.split('/').pop()` from the console `extractCallSite`
snippet: the last path segment with NO falsy fallback (this differs from
`jsBasename`). -/
def jsPop (p : List Char) : List Char :=
  ((splitOnChar '/' p).getLast?).getD []

/-! ### The location regular expression

Both extraction functions run
`line.match(/at\s+(?:([^\s]+)\s+)?\(?([^\s]+?):(\d+):(\d+)\)?/)`.
The match is deterministic once the classic backtracking semantics is spelt
out: every greedy repetition in the pattern is followed, on all live
alternatives, by an atom that rejects the repeated class, so each greedy run
is forced to be maximal; the lazy path capture grows one character at a time
until the `:line:col` continuation succeeds; the two optional atoms (the
function-name group and the opening parenthesis) try the consuming branch
first.  `findAtMatch` scans start positions left to right, as `match` does.

Captured groups are returned as
(optional function name, path, line string, column string).
-/

abbrev MatchGroups := Option (List Char) × List Char × List Char × List Char

/-- The `:(\d+):(\d+)` continuation after the path capture (the trailing
optional closing parenthesis constrains nothing). -/
def matchColDigits (cs : List Char) : Option (List Char × List Char) :=
  match cs with
  | ':' :: rest =>
    let ds := rest.takeWhile isDigitChar
    if ds.isEmpty then none
    else
      match rest.dropWhile isDigitChar with
      | ':' :: rest2 =>
        let ds2 := rest2.takeWhile isDigitChar
        if ds2.isEmpty then none else some (ds, ds2)
      | _ => none
  | _ => none

/-- The lazy `([^\s]+?)` capture followed by `:(\d+):(\d+)`: shortest
nonempty run of non-whitespace characters whose continuation matches. -/
def lazyPath (acc : List Char) : List Char → Option (List Char × List Char × List Char)
  | [] => none
  | c :: rest =>
    if isJsWs c then none
    else
      match matchColDigits rest with
      | some (ln, col) => some (acc ++ [c], ln, col)
      | none => lazyPath (acc ++ [c]) rest

/-- The `\(?([^\s]+?):(\d+):(\d+)\)?` tail: the optional parenthesis is
greedy, so the consuming branch is tried first. -/
def matchLoc (cs : List Char) : Option (List Char × List Char × List Char) :=
  match cs with
  | '(' :: rest => (lazyPath [] rest) <|> (lazyPath [] cs)
  | _ => lazyPath [] cs

/-- The pattern after the literal `at`, for the signature regular
expression (optional function-name group).  The whitespace runs and the
function-name run are forced maximal; if the branch that captures a
function name fails, the engine retries with the optional group skipped. -/
def matchAfterAt (cs : List Char) : Option MatchGroups :=
  match cs with
  | [] => none
  | c :: _ =>
    if isJsWs c then
      let rest1 := cs.dropWhile isJsWs
      let fn := rest1.takeWhile (fun d => !(isJsWs d))
      let afterFn := rest1.dropWhile (fun d => !(isJsWs d))
      let withFn : Option MatchGroups :=
        if fn.isEmpty || afterFn.isEmpty then none
        else (matchLoc (afterFn.dropWhile isJsWs)).map
          (fun g => (some fn, g.1, g.2.1, g.2.2))
      withFn <|> (matchLoc rest1).map (fun g => (none, g.1, g.2.1, g.2.2))
    else none

/-- Leftmost match of the signature regular expression in a line: try each
start position in order; only positions at a literal `at` can succeed. -/
def findAtMatch : List Char → Option MatchGroups
  | [] => none
  | 'a' :: 't' :: rest => (matchAfterAt rest) <|> findAtMatch ('t' :: rest)
  | _ :: rest => findAtMatch rest

abbrev MatchGroupsFn := List Char × List Char × List Char × List Char

/-- The pattern after the literal `at` for the `extractCallerInfo`
regular expression `/at\s+([^\s]+)\s+\(?([^\s]+?):(\d+):(\d+)\)?/`, whose
function-name group is NOT optional. -/
def matchAfterAtFn (cs : List Char) : Option MatchGroupsFn :=
  match cs with
  | [] => none
  | c :: _ =>
    if isJsWs c then
      let rest1 := cs.dropWhile isJsWs
      let fn := rest1.takeWhile (fun d => !(isJsWs d))
      let afterFn := rest1.dropWhile (fun d => !(isJsWs d))
      if fn.isEmpty || afterFn.isEmpty then none
      else (matchLoc (afterFn.dropWhile isJsWs)).map
        (fun g => (fn, g.1, g.2.1, g.2.2))
    else none

/-- Leftmost match for the function-name-required regular expression. -/
def findAtMatchFn : List Char → Option MatchGroupsFn
  | [] => none
  | 'a' :: 't' :: rest => (matchAfterAtFn rest) <|> findAtMatchFn ('t' :: rest)
  | _ :: rest => findAtMatchFn rest

/-! ### extractCallSiteSignature (profiler, lines 108-133)

The loop body is
`if (!line || line.startsWith('at ')) continue;` followed by the regular
expression match — note that the filter SKIPS trimmed lines that start with
`at `, so such lines never reach the match.
-/

/-- The scanning loop of `extractCallSiteSignature` over the lines after
the first one. -/
def cliScanLines : List (List Char) → Option MatchGroups
  | [] => none
  | l :: ls =>
    let t := jsTrim l
    if t.isEmpty || listStartsWith ['a', 't', ' '] t then cliScanLines ls
    else
      match findAtMatch t with
      | some g => some g
      | none => cliScanLines ls

/-- Formatting of a successful match in `extractCallSiteSignature`:
basename colon line, with the function name parenthesised when captured. -/
def cliFormat (g : MatchGroups) : String :=
  let b := jsBasename g.2.1
  match g.1 with
  | some fn => (b ++ [':'] ++ g.2.2.1 ++ [' ', '('] ++ fn ++ [')']).asString
  | none => (b ++ [':'] ++ g.2.2.1).asString

/-- Model of `extractCallSiteSignature(stack)`.  `none` models an absent
(`undefined`) stack; the empty string is falsy in JS, hence the explicit
empty test. -/
def extractCallSiteSignature (stack : Option String) : String :=
  match stack with
  | none => "<unknown>"
  | some s =>
    if s.data.isEmpty then "<unknown>"
    else
      match cliScanLines ((splitOnChar '\n' s.data).drop 1) with
      | some g => cliFormat g
      | none => "<unknown call site>"

/-! ### extractCallerInfo (profiler, lines 141-159) -/

/-- The scanning loop of `extractCallerInfo` (no skip filter; format is
function name first, then parenthesised basename colon line). -/
def callerScanLines : List (List Char) → String
  | [] => "<unknown>"
  | l :: ls =>
    match findAtMatchFn (jsTrim l) with
    | some g =>
      (g.1 ++ [' ', '('] ++ jsBasename g.2.1 ++ [':'] ++ g.2.2.1 ++ [')']).asString
    | none => callerScanLines ls

/-- Model of `extractCallerInfo(stack)`: scans only lines 2 to 4
(`for (let i = 2; i < Math.min(lines.length, 5); i++)`). -/
def extractCallerInfo (stack : Option String) : String :=
  match stack with
  | none => "<unknown>"
  | some s =>
    if s.data.isEmpty then "<unknown>"
    else callerScanLines (((splitOnChar '\n' s.data).take 5).drop 2)

/-! ### extractCallSite (console snippet in the debugging guide)

The console variant has NO skip filter in its loop and falls back to
the sentinel `<unknown>` (not `<unknown call site>`) when no line matches;
its basename also lacks the falsy fallback.
-/

/-- The scanning loop of the console `extractCallSite`. -/
def conScanLines : List (List Char) → Option MatchGroups
  | [] => none
  | l :: ls =>
    match findAtMatch (jsTrim l) with
    | some g => some g
    | none => conScanLines ls

/-- Formatting of a successful match in the console `extractCallSite`. -/
def conFormat (g : MatchGroups) : String :=
  let b := jsPop g.2.1
  match g.1 with
  | some fn => (b ++ [':'] ++ g.2.2.1 ++ [' ', '('] ++ fn ++ [')']).asString
  | none => (b ++ [':'] ++ g.2.2.1).asString

/-- Model of the console snippet function `extractCallSite(stack)`. -/
def extractCallSite (stack : Option String) : String :=
  match stack with
  | none => "<unknown>"
  | some s =>
    if s.data.isEmpty then "<unknown>"
    else
      match conScanLines ((splitOnChar '\n' s.data).drop 1) with
      | some g => conFormat g
      | none => "<unknown>"

example : extractCallSiteSignature (some "Error\n    at foo (src/app.js:42:7)") =
    "<unknown call site>" := by decide

example : extractCallSite (some "Error\n    at foo (a/b.js:10:5)") =
    "b.js:10 (foo)" := by decide

example : extractCallSiteSignature (some "Error\nquat foo (a/b.js:3:4)") =
    "b.js:3 (foo)" := by decide

example : extractCallSiteSignature (some "Error\n    at a/b.js:10:5") =
    "<unknown call site>" := by decide

example : extractCallSite (some "Error\n    at a/b.js:10:5") = "b.js:10" := by decide

example : extractCallerInfo (some "a\nb\n    at foo (x/y.js:3:4)\nc") =
    "foo (y.js:3)" := by decide

/-! ### The aggregation map (timerStats, lines 99 and 167-183)

The JS `Map` preserves insertion order and `map.set` on an existing key
updates in place, so the map is modelled as an insertion-ordered list of
records; `recordTimerCall` updates the entry whose signature matches, or
appends a fresh record.
-/

/-- The two scheduling primitives, as stored in the `type` field. -/
inductive TimerType where
  | setTimeout
  | setInterval
deriving DecidableEq, Repr

/-- One value of the `timerStats` map (count, type, signature, stack,
caller), as built by `recordTimerCall`. -/
structure TimerStat where
  count : Nat
  type : TimerType
  signature : String
  stack : Option String
  caller : String
deriving DecidableEq, Repr

/-- Model of `recordTimerCall(type, stack)` acting on the map: if the
derived signature is present, increment its count and overwrite its type
(the stack and caller fields keep their first-call values); otherwise
insert a fresh record with count 1. -/
def recordTimerCall (ty : TimerType) (stack : Option String)
    (m : List TimerStat) : List TimerStat :=
  let sig := extractCallSiteSignature stack
  if m.any (fun st => st.signature = sig) then
    m.map (fun st =>
      if st.signature = sig then { st with count := st.count + 1, type := ty } else st)
  else
    m ++ [{ count := 1, type := ty, signature := sig, stack := stack,
            caller := extractCallerInfo stack }]

/-- Total number of recorded calls (the reduce over counts used by the
reporters). -/
def sumCounts (m : List TimerStat) : Nat :=
  (m.map (fun st => st.count)).sum

/-! ### The cancellation wrappers (trackedClearTimeout / trackedClearInterval,
lines 224-237) and the active-timer set (line 100)

Timer handles are opaque; they are modelled by natural numbers and the JS
`Set` by a `Finset`.  Each wrapper deletes the handle from the active set
and then delegates to the captured original cancellation primitive with the
same handle; the `Delegation` value records which original was invoked and
with which argument.  Both wrappers are total functions: like
`Set.prototype.delete` and the native clear functions, they never throw.
-/

/-- Record of the delegated call to an original cancellation primitive. -/
inductive Delegation where
  | clearTimeout (handle : Nat)
  | clearInterval (handle : Nat)
deriving DecidableEq, Repr

/-- Model of `trackedClearTimeout(timerId)`: remove the handle from the
active set, then return the delegated `originalClearTimeout(timerId)`. -/
def trackedClearTimeout (handle : Nat) (active : Finset Nat) :
    Finset Nat × Delegation :=
  (active.erase handle, Delegation.clearTimeout handle)

/-- Model of `trackedClearInterval(timerId)`: remove the handle from the
active set, then return the delegated `originalClearInterval(timerId)`. -/
def trackedClearInterval (handle : Nat) (active : Finset Nat) :
    Finset Nat × Delegation :=
  (active.erase handle, Delegation.clearInterval handle)

/-! ### The process-global bindings and the profiler run (lines 93-96 and
373-424)

`JsFun.native n` stands for an arbitrary pre-existing function reference
(reference identity is what matters for the restore property), and the four
tracked constructors stand for the wrapper functions defined by the
profiler.  `moduleInit` captures the four globals into
`originalSetTimeout` .. `originalClearInterval` (lines 93-96); `installWrappers`
is the block at lines 379-382 and `restoreOriginals` the block at lines
396-399.
-/

/-- A JavaScript function reference, as far as identity is concerned. -/
inductive JsFun where
  | native : Nat → JsFun
  | trackedSetTimeout
  | trackedSetInterval
  | trackedClearTimeout
  | trackedClearInterval
deriving DecidableEq, Repr

/-- The four process-wide timer bindings. -/
structure Globals where
  setTimeout : JsFun
  setInterval : JsFun
  clearTimeout : JsFun
  clearInterval : JsFun
deriving DecidableEq, Repr

/-- The bindings while the wrappers are installed. -/
def trackedGlobals : Globals :=
  { setTimeout := JsFun.trackedSetTimeout
    setInterval := JsFun.trackedSetInterval
    clearTimeout := JsFun.trackedClearTimeout
    clearInterval := JsFun.trackedClearInterval }

/-- Whole-profiler state: the captured originals, the current global
bindings, the aggregation map and the active-timer set. -/
structure ProfilerState where
  captured : Globals
  globals : Globals
  timerStats : List TimerStat
  activeTimers : Finset Nat
deriving DecidableEq

/-- Module initialisation: capture the four original primitives (lines
93-96) and create the empty map and set (lines 99-100).  The pre-existing
global bindings are arbitrary. -/
def moduleInit (g : Globals) : ProfilerState :=
  { captured := g, globals := g, timerStats := [], activeTimers := ∅ }

/-- Lines 379-382: replace the process-wide bindings with the wrappers. -/
def installWrappers (s : ProfilerState) : ProfilerState :=
  { s with globals := trackedGlobals }

/-- Lines 396-399: restore the four captured original bindings verbatim. -/
def restoreOriginals (s : ProfilerState) : ProfilerState :=
  { s with globals := s.captured }

/-- One intercepted use of a wrapped primitive during the window.  A
scheduling event carries the stack captured at the call site and the
handle returned by the original primitive; a cancellation event carries
the handle passed in. -/
inductive WindowEvent where
  | scheduleOnce (stack : Option String) (handle : Nat)
  | scheduleRepeating (stack : Option String) (handle : Nat)
  | cancelOnce (handle : Nat)
  | cancelRepeating (handle : Nat)

/-- Effect of one intercepted call on the profiler state, following
`trackedSetTimeout` / `trackedSetInterval` (record, delegate, add handle)
and `trackedClearTimeout` / `trackedClearInterval` (remove handle,
delegate). -/
def stepEvent (s : ProfilerState) : WindowEvent → ProfilerState
  | WindowEvent.scheduleOnce stack h =>
    { s with timerStats := recordTimerCall TimerType.setTimeout stack s.timerStats
             activeTimers := insert h s.activeTimers }
  | WindowEvent.scheduleRepeating stack h =>
    { s with timerStats := recordTimerCall TimerType.setInterval stack s.timerStats
             activeTimers := insert h s.activeTimers }
  | WindowEvent.cancelOnce h =>
    { s with activeTimers := (trackedClearTimeout h s.activeTimers).1 }
  | WindowEvent.cancelRepeating h =>
    { s with activeTimers := (trackedClearInterval h s.activeTimers).1 }

/-- All intercepted calls of the observation window, in arrival order. -/
def runEvents (s : ProfilerState) (evs : List WindowEvent) : ProfilerState :=
  evs.foldl stepEvent s

/-- The three scheduling calls the profiler issues itself right after
installing the wrappers (lines 384-388): two repeating timers and one
delayed single-shot timer, all through the then-current global bindings,
which are the wrappers. -/
def selfSchedule (st1 st2 st3 : Option String) (h1 h2 h3 : Nat)
    (s : ProfilerState) : ProfilerState :=
  runEvents s
    [WindowEvent.scheduleRepeating st1 h1,
     WindowEvent.scheduleRepeating st2 h2,
     WindowEvent.scheduleOnce st3 h3]

/-- The end-of-window wait (lines 391-393) resolves through the CAPTURED
`originalSetTimeout`, bypassing the wrappers, so it records nothing and
adds no handle: it leaves the profiler state unchanged. -/
def windowWait (s : ProfilerState) : ProfilerState := s

/-- Where an unexpected exception is raised inside `runProfiler`. -/
inductive ErrPhase where
  | duringWindow
  | duringReport
deriving DecidableEq, Repr

/-- Final value of the global bindings when the process ends, as a function
of the pre-existing bindings, the window events and an optional injected
exception.  `runProfiler` has no try/finally: the restore block (lines
396-399) runs after the awaited window and before the report; the
`.catch` handler (lines 421-424) only logs and exits.  An exception during
the window therefore reaches the exit with the bindings as they were at
the throw point, while an exception during report computation happens
after the restore has already executed. -/
def runProfilerGlobals (g : Globals) (evs : List WindowEvent)
    (err : Option ErrPhase) : Globals :=
  let s1 := installWrappers (moduleInit g)
  let s2 := windowWait (runEvents s1 evs)
  match err with
  | some ErrPhase.duringWindow => s2.globals
  | some ErrPhase.duringReport => (restoreOriginals s2).globals
  | none => (restoreOriginals s2).globals

/-! ### Option parsing (lines 78-90)

`parseInt(values.duration, 10)` skips leading whitespace, accepts an
optional sign and then a run of decimal digits, ignoring any trailing
characters; it yields NaN (modelled as `none`) when no digit is found.
`parseInt(...) || 2` replaces the falsy results NaN and 0 by the default
2, after which `Math.max(1, _)` clamps from below — so the value reaching
the validation check on line 87 is always a number at least 1, and the
`isNaN(duration) || duration < 1` guard can never fire.
-/

/-- Digit-run value, or `none` when the run is empty (NaN). -/
def digitsVal (cs : List Char) : Option Nat :=
  let ds := cs.takeWhile isDigitChar
  if ds.isEmpty then none
  else some (ds.foldl (fun a c => a * 10 + (c.toNat - '0'.toNat)) 0)

/-- Model of `parseInt(s, 10)`; `none` is NaN. -/
def jsParseInt (s : String) : Option Int :=
  let cs := s.data.dropWhile isJsWs
  match cs with
  | '-' :: rest => (digitsVal rest).map (fun n => -(n : Int))
  | '+' :: rest => (digitsVal rest).map (fun n => (n : Int))
  | _ => (digitsVal cs).map (fun n => (n : Int))

/-- Line 78: `Math.max(1, parseInt(values.duration, 10) || 2)`. -/
def durationOf (s : String) : Int :=
  max 1
    (match jsParseInt s with
     | none => 2
     | some 0 => 2
     | some n => n)

/-- Line 87 guard `isNaN(duration) || duration < 1`.  The NaN disjunct is
modelled as false because the logical-or fallback on line 78 already
replaced NaN by 2, so the value is a genuine integer here. -/
def durationGuardFires (s : String) : Bool :=
  durationOf s < 1

example : durationOf "abc" = 2 := by decide
example : durationOf "5" = 5 := by decide
example : durationOf "-3" = 1 := by decide
example : durationOf "0" = 2 := by decide
example : durationGuardFires "abc" = false := by decide

/-! ### Ranking (lines 402-408)

`allCallSites.sort((a, b) => b.count - a.count)` sorts by count descending;
`Array.prototype.sort` is required to be stable, so it is modelled by
insertion sort with the non-strict relation "count at least", which is
stable for equal counts.  `slice(0, topCount)` is `take`.
-/

/-- The comparator relation: `a` may precede `b` when the count of `a` is
at least the count of `b` (descending order). -/
def countGE (a b : TimerStat) : Prop := b.count ≤ a.count

instance : DecidableRel countGE := fun a b => Nat.decLe b.count a.count

instance : IsTotal TimerStat countGE :=
  ⟨fun a b => by unfold countGE; exact Nat.le_total b.count a.count⟩

instance : IsTrans TimerStat countGE :=
  ⟨fun _ _ _ hab hbc => Nat.le_trans hbc hab⟩

/-- Line 405: stable sort of all records by count descending. -/
def sortCallSites (l : List TimerStat) : List TimerStat :=
  List.insertionSort countGE l

/-- Line 408: the top-N slice of the sorted records. -/
def topCallSites (l : List TimerStat) (n : Nat) : List TimerStat :=
  (sortCallSites l).take n

/-! ### Percentages (formatTableOutput lines 268-277, formatJsonOutput
lines 288-317)

Both reporters compute `site.count / total * 100` where `total` is the sum
of counts over the WHOLE top-N list (`topCallSites.reduce(...)`); the
table then displays only the first five entries (`slice(0, 5)`) and rounds
with `toFixed(1)`, the JSON output keeps all top-N entries and rounds with
`toFixed(2)`.  The JS numbers are IEEE doubles; they are modelled by
rationals, and `toFixed` by rounding to the nearest multiple of a tenth
(resp. a hundredth) — faithful at every input used below, none of which is
a rounding tie or reachable by a float whose decimal expansion rounds
differently.
-/

/-- Rounding of `toFixed(1)` as a rational. -/
def toFixed1 (q : ℚ) : ℚ := (round (q * 10) : ℤ) / 10

/-- Rounding of `toFixed(2)` as a rational. -/
def toFixed2 (q : ℚ) : ℚ := (round (q * 100) : ℤ) / 100

/-- The denominator both reporters use: total calls summed over the whole
top-N list. -/
def totalDisplayedCalls (top : List TimerStat) : Nat :=
  (top.map (fun st => st.count)).sum

/-- The exact (pre-rounding) percentage of one record relative to a top-N
list.  Division by zero only arises on the empty list, where no percentage
is ever computed. -/
def percentageOf (top : List TimerStat) (st : TimerStat) : ℚ :=
  (st.count : ℚ) / (totalDisplayedCalls top : ℚ) * 100

/-- The percentage column of the frequency-analysis section of the table
reporter: first five entries, each rounded by `toFixed(1)`. -/
def tableFrequencyRows (top : List TimerStat) : List ℚ :=
  (top.take 5).map (fun st => toFixed1 (percentageOf top st))

/-- The same rows before rounding. -/
def tableFrequencyExact (top : List TimerStat) : List ℚ :=
  (top.take 5).map (percentageOf top)

/-- The percentage fields of the JSON reporter: all top-N entries, each
rounded by `toFixed(2)`. -/
def jsonPercentages (top : List TimerStat) : List ℚ :=
  top.map (fun st => toFixed2 (percentageOf top st))

/-! ### Preservation lemmas for the window state machine -/

lemma stepEvent_globals (s : ProfilerState) (e : WindowEvent) :
    (stepEvent s e).globals = s.globals ∧ (stepEvent s e).captured = s.captured := by
  cases e <;> exact ⟨rfl, rfl⟩

lemma runEvents_globals : ∀ (evs : List WindowEvent) (s : ProfilerState),
    (runEvents s evs).globals = s.globals ∧ (runEvents s evs).captured = s.captured
  | [], _ => ⟨rfl, rfl⟩
  | e :: t, s => by
    have h1 := stepEvent_globals s e
    have h2 := runEvents_globals t (stepEvent s e)
    exact ⟨h2.1.trans h1.1, h2.2.trans h1.2⟩

/-- C4: for every run that completes its observation window, the restore
block hands back exactly the four references captured before install: the
bindings after `restoreOriginals` equal the pre-install bindings, whatever
(and however many) timer calls happened during the window, including none. -/
theorem install_uninstall_roundtrip (g : Globals) (evs : List WindowEvent) :
    (restoreOriginals (runEvents (installWrappers (moduleInit g)) evs)).globals = g ∧
    (restoreOriginals (runEvents (installWrappers (moduleInit g)) evs)).globals
      = (moduleInit g).globals := by
  have h := runEvents_globals evs (installWrappers (moduleInit g))
  have hc : (runEvents (installWrappers (moduleInit g)) evs).captured = g := h.2
  exact ⟨hc, hc⟩

/-- C2 counterexample: with pre-existing native bindings and an unexpected
exception during the observation window, the process exits with the
wrappers still installed — the original primitives are NOT restored on
that exit path. -/
theorem runProfiler_window_error_not_restored :
    runProfilerGlobals
        { setTimeout := JsFun.native 0, setInterval := JsFun.native 1,
          clearTimeout := JsFun.native 2, clearInterval := JsFun.native 3 }
        [] (some ErrPhase.duringWindow)
      ≠ { setTimeout := JsFun.native 0, setInterval := JsFun.native 1,
          clearTimeout := JsFun.native 2, clearInterval := JsFun.native 3 } := by
  decide

/-- C2 amended: the restore block (lines 396-399) runs after the awaited
window and before any report computation, so an exception raised while
computing the report — and a normal completion — both end with the
original bindings in place; but an exception raised during the window
reaches the exit handler with the wrappers still installed, because
`runProfiler` has no try/finally and its catch handler does not restore. -/
theorem runProfiler_cleanup_paths (g : Globals) (evs : List WindowEvent) :
    runProfilerGlobals g evs none = g ∧
    runProfilerGlobals g evs (some ErrPhase.duringReport) = g ∧
    runProfilerGlobals g evs (some ErrPhase.duringWindow) = trackedGlobals := by
  have h := runEvents_globals evs (installWrappers (moduleInit g))
  have hc : (runEvents (installWrappers (moduleInit g)) evs).captured = g := h.2
  have hg : (runEvents (installWrappers (moduleInit g)) evs).globals = trackedGlobals := h.1
  exact ⟨hc, hc, hg⟩

/-- C3: the validation guard for `--duration` (line 87) is unreachable for
every argument string, because `parseInt(...) || 2` already replaced the
NaN produced by a non-numeric argument with the default 2 and `Math.max(1, _)`
clamps from below; in particular a non-numeric `--duration abc` yields the
default duration 2 and the profiler proceeds to install the interceptors
instead of printing an error and exiting. -/
theorem duration_guard_unreachable :
    (∀ s : String, durationGuardFires s = false) ∧ durationOf "abc" = 2 := by
  constructor
  · intro s
    have h1 : (1 : Int) ≤ durationOf s := le_max_left _ _
    exact decide_eq_false (not_lt.mpr h1)
  · decide

/-- C6: each cancellation wrapper removes the handle from the active set
when present, leaves the set unchanged when the handle is absent, and in
both cases delegates to the corresponding original cancellation primitive
with the same handle; both wrappers are total functions (nothing throws),
and the handle is never in the resulting set. -/
theorem trackedClear_cancellation (h : Nat) (active : Finset Nat) :
    ((trackedClearTimeout h active).1 = active.erase h) ∧
    (h ∉ (trackedClearTimeout h active).1) ∧
    (h ∉ active → (trackedClearTimeout h active).1 = active) ∧
    ((trackedClearTimeout h active).2 = Delegation.clearTimeout h) ∧
    ((trackedClearInterval h active).1 = active.erase h) ∧
    (h ∉ active → (trackedClearInterval h active).1 = active) ∧
    ((trackedClearInterval h active).2 = Delegation.clearInterval h) :=
  ⟨rfl, Finset.not_mem_erase h active, fun hn => Finset.erase_eq_of_not_mem hn,
   rfl, rfl, fun hn => Finset.erase_eq_of_not_mem hn, rfl⟩

/-- Witness for C6 at a concrete handle and set: cancelling the unknown
handle 7 leaves the set unchanged and delegates with 7. -/
theorem trackedClear_cancellation_witness :
    (trackedClearTimeout 7 ({1, 5} : Finset Nat)).1 = {1, 5} ∧
    (trackedClearTimeout 7 ({1, 5} : Finset Nat)).2 = Delegation.clearTimeout 7 := by
  have t := trackedClear_cancellation 7 ({1, 5} : Finset Nat)
  exact ⟨t.2.2.1 (by decide), t.2.2.2.1⟩

/-- C1: the skip filter on line 117 discards every trimmed line that
starts with `at `, so a stack whose frames have the documented shape
`at fn (path:line:col)` never reaches the regular expression and the
function returns the no-match sentinel instead of `basename:line (fn)` —
even though the regular expression itself (first conjunct) extracts
exactly the advertised groups from such a line.  The sentinel for an
absent trace and for a genuinely unparseable trace behave as specified. -/
theorem extractCallSiteSignature_skips_at_frames :
    findAtMatch (jsTrim "    at foo (src/app.js:42:7)".data)
      = some (some "foo".data, "src/app.js".data, "42".data, "7".data) ∧
    extractCallSiteSignature (some "Error\n    at foo (src/app.js:42:7)")
      = "<unknown call site>" ∧
    extractCallSiteSignature none = "<unknown>" ∧
    extractCallSiteSignature (some "Error\nnothing here")
      = "<unknown call site>" := by
  exact ⟨by decide, by decide, by decide, by decide⟩

/-- C9 counterexample: on a standard stack frame the two variants return
different signatures — the CLI profiler skips the `at `-prefixed line and
falls back to its sentinel, while the console snippet parses it. -/
theorem extract_functions_disagree :
    extractCallSiteSignature (some "Error\n    at bar (lib/util.js:10:5)")
      = "<unknown call site>" ∧
    extractCallSite (some "Error\n    at bar (lib/util.js:10:5)")
      = "util.js:10 (bar)" ∧
    extractCallSiteSignature (some "Error\n    at bar (lib/util.js:10:5)")
      ≠ extractCallSite (some "Error\n    at bar (lib/util.js:10:5)") := by
  exact ⟨by decide, by decide, by decide⟩

/-! ### Lookup lemmas for the aggregation map -/

/-- First record with the given signature (models `timerStats.get`; JS map
keys are unique, and the updates below preserve the first-match position
even without that invariant). -/
def findSig (sig : String) (m : List TimerStat) : Option TimerStat :=
  m.find? (fun st => st.signature = sig)

lemma findSig_cons_pos (sig : String) (b : TimerStat) (t : List TimerStat)
    (hb : b.signature = sig) : findSig sig (b :: t) = some b := by
  have hpb : (fun st : TimerStat => decide (st.signature = sig)) b = true := by
    simp [hb]
  exact List.find?_cons_of_pos t hpb

lemma findSig_cons_neg (sig : String) (b : TimerStat) (t : List TimerStat)
    (hb : ¬ b.signature = sig) : findSig sig (b :: t) = findSig sig t := by
  have hpb : ¬ ((fun st : TimerStat => decide (st.signature = sig)) b = true) := by
    simp [hb]
  exact List.find?_cons_of_neg t hpb

lemma any_eq_isSome (sig : String) (m : List TimerStat) :
    m.any (fun st => st.signature = sig) = (findSig sig m).isSome := by
  induction m with
  | nil => rfl
  | cons b t ih =>
    by_cases hb : b.signature = sig
    · simp [List.any_cons, hb, findSig_cons_pos sig b t hb]
    · rw [findSig_cons_neg sig b t hb]
      simp only [List.any_cons]
      rw [← ih]
      simp [hb]

lemma find_map_update (sig : String) (ty : TimerType) (m : List TimerStat)
    (a : TimerStat) (hf : findSig sig m = some a) :
    findSig sig (m.map (fun st =>
        if st.signature = sig then { st with count := st.count + 1, type := ty } else st))
      = some { a with count := a.count + 1, type := ty } := by
  induction m with
  | nil => simp [findSig] at hf
  | cons b t ih =>
    by_cases hb : b.signature = sig
    · have hab : a = b := by
        rw [findSig_cons_pos sig b t hb] at hf
        exact (Option.some.inj hf).symm
      subst hab
      rw [List.map_cons, if_pos hb]
      exact findSig_cons_pos sig _ _ hb
    · rw [findSig_cons_neg sig b t hb] at hf
      rw [List.map_cons, if_neg hb, findSig_cons_neg sig b _ hb]
      exact ih hf

lemma find_append_single (sig : String) (m : List TimerStat) (new : TimerStat)
    (hf : findSig sig m = none) (hnew : new.signature = sig) :
    findSig sig (m ++ [new]) = some new := by
  induction m with
  | nil =>
    rw [List.nil_append]
    exact findSig_cons_pos sig new [] hnew
  | cons b t ih =>
    have hb : ¬ b.signature = sig := by
      intro hb
      rw [findSig_cons_pos sig b t hb] at hf
      exact Option.noConfusion hf
    rw [findSig_cons_neg sig b t hb] at hf
    rw [List.cons_append, findSig_cons_neg sig b _ hb]
    exact ih hf

/-- Recording a call whose stack derives a signature already in the map:
that record gets count plus one and the new type. -/
lemma record_hit (ty : TimerType) (stack : Option String) (m : List TimerStat)
    (a : TimerStat) (hf : findSig (extractCallSiteSignature stack) m = some a) :
    findSig (extractCallSiteSignature stack) (recordTimerCall ty stack m)
      = some { a with count := a.count + 1, type := ty } := by
  have hany : m.any (fun st => st.signature = extractCallSiteSignature stack) = true := by
    rw [any_eq_isSome, hf]
    rfl
  unfold recordTimerCall
  rw [if_pos hany]
  exact find_map_update _ ty m a hf

/-- Recording a call whose stack derives a signature not yet in the map:
a fresh record with count one and the call type is appended. -/
lemma record_miss (ty : TimerType) (stack : Option String) (m : List TimerStat)
    (hf : findSig (extractCallSiteSignature stack) m = none) :
    findSig (extractCallSiteSignature stack) (recordTimerCall ty stack m)
      = some { count := 1, type := ty, signature := extractCallSiteSignature stack,
               stack := stack, caller := extractCallerInfo stack } := by
  have hany : m.any (fun st => st.signature = extractCallSiteSignature stack) = false := by
    rw [any_eq_isSome, hf]
    rfl
  unfold recordTimerCall
  rw [if_neg (by simp [hany])]
  exact find_append_single _ m _ hf rfl

/-! ### C5: counts accumulate per signature, kind is last-write-wins -/

/-- Count stored for a signature, zero when absent. -/
def countOfSig (sig : String) (m : List TimerStat) : Nat :=
  match findSig sig m with
  | some st => st.count
  | none => 0

lemma record_countOf (ty : TimerType) (stack : Option String) (m : List TimerStat)
    (sig : String) (hs : extractCallSiteSignature stack = sig) :
    countOfSig sig (recordTimerCall ty stack m) = countOfSig sig m + 1 := by
  subst hs
  cases hf : findSig (extractCallSiteSignature stack) m with
  | some a =>
    unfold countOfSig
    rw [record_hit ty stack m a hf, hf]
  | none =>
    unfold countOfSig
    rw [record_miss ty stack m hf, hf]

lemma fold_record_count (sig : String) :
    ∀ (calls : List (TimerType × Option String)) (m0 : List TimerStat)
      (hne : calls ≠ [])
      (_ : ∀ c ∈ calls, extractCallSiteSignature c.2 = sig),
    ∃ st, findSig sig (calls.foldl (fun m c => recordTimerCall c.1 c.2 m) m0) = some st ∧
      st.count = countOfSig sig m0 + calls.length ∧
      st.type = (calls.getLast hne).1
  | [], _, hne, _ => absurd rfl hne
  | [c], m0, _, hall => by
    have hs : extractCallSiteSignature c.2 = sig := hall c (by simp)
    rw [List.foldl_cons, List.foldl_nil]
    cases hf : findSig sig m0 with
    | some a =>
      refine ⟨{ a with count := a.count + 1, type := c.1 }, ?_, ?_, rfl⟩
      · have := record_hit c.1 c.2 m0 a (by rw [hs]; exact hf)
        rw [hs] at this
        exact this
      · simp [countOfSig, hf]
    | none =>
      refine ⟨{ count := 1, type := c.1, signature := sig, stack := c.2,
                caller := extractCallerInfo c.2 }, ?_, ?_, rfl⟩
      · have := record_miss c.1 c.2 m0 (by rw [hs]; exact hf)
        rw [hs] at this
        exact this
      · simp [countOfSig, hf]
  | c :: c2 :: rest, m0, _, hall => by
    have hs : extractCallSiteSignature c.2 = sig := hall c (by simp)
    have htail : ∀ d ∈ c2 :: rest, extractCallSiteSignature d.2 = sig := by
      intro d hd
      exact hall d (List.mem_cons_of_mem c hd)
    obtain ⟨st, hfind, hcount, htype⟩ :=
      fold_record_count sig (c2 :: rest) (recordTimerCall c.1 c.2 m0)
        (List.cons_ne_nil c2 rest) htail
    refine ⟨st, ?_, ?_, ?_⟩
    · rw [List.foldl_cons]
      exact hfind
    · rw [hcount, record_countOf c.1 c.2 m0 sig hs]
      simp [List.length_cons]
      omega
    · rw [htype, List.getLast_cons (List.cons_ne_nil c2 rest)]

/-- C5: for every nonempty sequence of intercepted scheduling calls whose
stacks all derive the same signature, the aggregation map built from the
empty map holds one record for that signature whose count is the length of
the sequence and whose type is the scheduling primitive of the LAST call
(last-write-wins). -/
theorem aggregator_count_eq_calls (calls : List (TimerType × Option String))
    (sig : String) (hne : calls ≠ [])
    (hall : ∀ c ∈ calls, extractCallSiteSignature c.2 = sig) :
    ∃ st, findSig sig (calls.foldl (fun m c => recordTimerCall c.1 c.2 m) []) = some st ∧
      st.count = calls.length ∧ st.type = (calls.getLast hne).1 := by
  obtain ⟨st, hfind, hcount, htype⟩ := fold_record_count sig calls [] hne hall
  refine ⟨st, hfind, ?_, htype⟩
  simpa [countOfSig, findSig] using hcount

/-- Witness for C5: three calls sharing one (unparseable) stack signature
give one record with count 3 and the repeating kind of the last call. -/
theorem aggregator_count_eq_calls_witness :
    ∃ st, findSig "<unknown call site>"
        (([(TimerType.setInterval, some "E\nsame"), (TimerType.setTimeout, some "E\nsame"),
           (TimerType.setInterval, some "E\nsame")] :
            List (TimerType × Option String)).foldl
          (fun m c => recordTimerCall c.1 c.2 m) []) = some st ∧
      st.count = 3 ∧ st.type = TimerType.setInterval := by
  have h := aggregator_count_eq_calls
    [(TimerType.setInterval, some "E\nsame"), (TimerType.setTimeout, some "E\nsame"),
     (TimerType.setInterval, some "E\nsame")]
    "<unknown call site>" (by decide) (by decide)
  simpa using h

/-! ### C10: the profiler records its own scheduling calls -/

/-- The invariant of the JS map: signatures are unique keys. -/
def sigsNodup (m : List TimerStat) : Prop :=
  (m.map (fun st => st.signature)).Nodup

lemma sum_map_update (sig : String) (ty : TimerType) :
    ∀ (m : List TimerStat), sigsNodup m →
      m.any (fun st => st.signature = sig) = true →
      sumCounts (m.map (fun st =>
          if st.signature = sig then { st with count := st.count + 1, type := ty } else st))
        = sumCounts m + 1 := by
  intro m
  induction m with
  | nil =>
    intro _ h
    simp at h
  | cons b t ih =>
    intro hnd hany
    have hnd2 : b.signature ∉ t.map (fun st => st.signature) ∧ sigsNodup t := by
      have h := hnd
      unfold sigsNodup at h
      rw [List.map_cons, List.nodup_cons] at h
      exact ⟨h.1, h.2⟩
    by_cases hb : b.signature = sig
    · have ht : ∀ st ∈ t, ¬ st.signature = sig := by
        intro st hst heq
        exact hnd2.1 (List.mem_map.mpr ⟨st, hst, by rw [heq, hb]⟩)
      have hmap : t.map (fun st =>
          if st.signature = sig then { st with count := st.count + 1, type := ty } else st) = t := by
        have h1 : t.map (fun st =>
            if st.signature = sig then { st with count := st.count + 1, type := ty } else st)
            = t.map id :=
          List.map_congr_left (fun st hst => by rw [if_neg (ht st hst)]; rfl)
        rw [h1, List.map_id]
      rw [List.map_cons, if_pos hb, hmap]
      simp only [sumCounts, List.map_cons, List.sum_cons]
      omega
    · have hanyt : t.any (fun st => st.signature = sig) = true := by
        rw [List.any_cons] at hany
        simpa [hb] using hany
      have h := ih hnd2.2 hanyt
      rw [List.map_cons, if_neg hb]
      simp only [sumCounts, List.map_cons, List.sum_cons] at h ⊢
      omega

lemma sigsNodup_record (ty : TimerType) (stack : Option String) (m : List TimerStat)
    (h : sigsNodup m) : sigsNodup (recordTimerCall ty stack m) := by
  unfold recordTimerCall
  by_cases hany : m.any (fun st => st.signature = extractCallSiteSignature stack) = true
  · rw [if_pos hany]
    unfold sigsNodup
    rw [List.map_map]
    have hcomp : ((fun st : TimerStat => st.signature) ∘ (fun st =>
        if st.signature = extractCallSiteSignature stack then
          { st with count := st.count + 1, type := ty } else st))
        = fun st : TimerStat => st.signature := by
      funext st
      by_cases hst : st.signature = extractCallSiteSignature stack
      · simp [Function.comp, hst]
      · simp [Function.comp, hst]
    rw [hcomp]
    exact h
  · rw [if_neg hany]
    unfold sigsNodup
    rw [List.map_append, List.nodup_append]
    have hnot : ∀ st ∈ m, ¬ st.signature = extractCallSiteSignature stack := by
      intro st hst heq
      exact hany (List.any_eq_true.mpr ⟨st, hst, by simpa using heq⟩)
    refine ⟨h, List.nodup_singleton _, ?_⟩
    intro x hx hx2
    rcases List.mem_map.mp hx with ⟨st, hst, hsig⟩
    have h2 : x = extractCallSiteSignature stack := by
      simpa using List.mem_singleton.mp hx2
    exact hnot st hst (hsig.trans h2)

lemma sumCounts_record (ty : TimerType) (stack : Option String) (m : List TimerStat)
    (h : sigsNodup m) : sumCounts (recordTimerCall ty stack m) = sumCounts m + 1 := by
  unfold recordTimerCall
  by_cases hany : m.any (fun st => st.signature = extractCallSiteSignature stack) = true
  · rw [if_pos hany]
    exact sum_map_update _ ty m h hany
  · rw [if_neg hany]
    simp [sumCounts, List.map_append, List.sum_append]

/-- C10: right after installing the wrappers the profiler schedules, via
the then-installed wrapped bindings, two repeating timers and one delayed
single-shot timer; whatever stacks the runtime produces for them, the
aggregation map then holds exactly three recorded calls and the three
returned handles are in the active-timer set, while the bindings are the
wrappers; the end-of-window wait runs through the captured original
primitive and leaves the profiler state untouched. -/
theorem profiler_self_schedules (g : Globals) (st1 st2 st3 : Option String)
    (h1 h2 h3 : Nat) :
    sumCounts ((selfSchedule st1 st2 st3 h1 h2 h3
        (installWrappers (moduleInit g))).timerStats) = 3 ∧
    h1 ∈ (selfSchedule st1 st2 st3 h1 h2 h3
        (installWrappers (moduleInit g))).activeTimers ∧
    h2 ∈ (selfSchedule st1 st2 st3 h1 h2 h3
        (installWrappers (moduleInit g))).activeTimers ∧
    h3 ∈ (selfSchedule st1 st2 st3 h1 h2 h3
        (installWrappers (moduleInit g))).activeTimers ∧
    (selfSchedule st1 st2 st3 h1 h2 h3
        (installWrappers (moduleInit g))).globals = trackedGlobals ∧
    windowWait (selfSchedule st1 st2 st3 h1 h2 h3
        (installWrappers (moduleInit g)))
      = selfSchedule st1 st2 st3 h1 h2 h3 (installWrappers (moduleInit g)) := by
  have n0 : sigsNodup [] := by simp [sigsNodup]
  have n1 := sigsNodup_record TimerType.setInterval st1 [] n0
  have n2 := sigsNodup_record TimerType.setInterval st2 _ n1
  refine ⟨?_, ?_, ?_, ?_, rfl, rfl⟩
  · show sumCounts (recordTimerCall TimerType.setTimeout st3
      (recordTimerCall TimerType.setInterval st2
        (recordTimerCall TimerType.setInterval st1 []))) = 3
    rw [sumCounts_record _ _ _ n2, sumCounts_record _ _ _ n1, sumCounts_record _ _ _ n0]
    rfl
  · show h1 ∈ insert h3 (insert h2 (insert h1 (∅ : Finset Nat)))
    exact Finset.mem_insert_of_mem (Finset.mem_insert_of_mem (Finset.mem_insert_self h1 ∅))
  · show h2 ∈ insert h3 (insert h2 (insert h1 (∅ : Finset Nat)))
    exact Finset.mem_insert_of_mem (Finset.mem_insert_self h2 _)
  · show h3 ∈ insert h3 (insert h2 (insert h1 (∅ : Finset Nat)))
    exact Finset.mem_insert_self h3 _

/-! ### C7: ranking is bounded, non-increasing and stable -/

lemma filter_orderedInsert (a : TimerStat) (c : Nat) :
    ∀ (l : List TimerStat),
      (List.orderedInsert countGE a l).filter (fun st => st.count = c)
        = if a.count = c then a :: l.filter (fun st => st.count = c)
          else l.filter (fun st => st.count = c) := by
  intro l
  induction l with
  | nil =>
    by_cases hac : a.count = c <;> simp [List.orderedInsert, hac]
  | cons b t ih =>
    rw [List.orderedInsert]
    by_cases hab : countGE a b
    · rw [if_pos hab]
      by_cases hac : a.count = c <;> simp [List.filter_cons, hac]
    · rw [if_neg hab]
      have hlt : a.count < b.count := by
        unfold countGE at hab
        omega
      by_cases hbc : b.count = c
      · have hac : ¬ a.count = c := by omega
        simp [List.filter_cons, hbc, hac, ih]
      · by_cases hac : a.count = c <;> simp [List.filter_cons, hbc, hac, ih]

lemma filter_sortCallSites (c : Nat) (l : List TimerStat) :
    (sortCallSites l).filter (fun st => st.count = c)
      = l.filter (fun st => st.count = c) := by
  unfold sortCallSites
  induction l with
  | nil => rfl
  | cons b t ih =>
    rw [List.insertionSort, filter_orderedInsert b c (List.insertionSort countGE t), ih]
    by_cases hbc : b.count = c <;> simp [List.filter_cons, hbc]

/-- C7: the produced top-N list has at most N entries and its counts are
monotonically non-increasing from first to last (pairwise `countGE`);
moreover the stable sort keeps entries of any fixed count in their
original insertion order — for every count value, filtering the sorted
list to that count yields exactly the same-order filtering of the input.
The ranking is deterministic by construction: `topCallSites` is a function
of the record list and N alone. -/
theorem topCallSites_ranking (l : List TimerStat) (n : Nat) :
    (topCallSites l n).length ≤ n ∧
    List.Sorted countGE (topCallSites l n) ∧
    (∀ c : Nat, (sortCallSites l).filter (fun st => st.count = c)
        = l.filter (fun st => st.count = c)) := by
  refine ⟨?_, ?_, fun c => filter_sortCallSites c l⟩
  · unfold topCallSites
    rw [List.length_take]
    exact min_le_left _ _
  · unfold topCallSites sortCallSites
    exact List.Pairwise.sublist (List.take_sublist n _) (List.sorted_insertionSort countGE l)

/-! ### C8: percentages -/

/-- C8 counterexample: a displayed top-N list with counts 1, 1, 4 (total
6).  The three rounded table percentages are 16.7, 16.7 and 66.7, which
sum to 100.1 — strictly more than 100 — so the claim that displayed
percentages sum to at most 100 percent at the fixed rounding precision is
false. -/
theorem table_percentages_sum_exceeds_100 :
    (tableFrequencyRows
        [{ count := 1, type := TimerType.setInterval, signature := "a",
           stack := none, caller := "a" },
         { count := 1, type := TimerType.setInterval, signature := "b",
           stack := none, caller := "b" },
         { count := 4, type := TimerType.setInterval, signature := "c",
           stack := none, caller := "c" }]).sum = 1001 / 10 ∧
    ¬ ((tableFrequencyRows
        [{ count := 1, type := TimerType.setInterval, signature := "a",
           stack := none, caller := "a" },
         { count := 1, type := TimerType.setInterval, signature := "b",
           stack := none, caller := "b" },
         { count := 4, type := TimerType.setInterval, signature := "c",
           stack := none, caller := "c" }]).sum ≤ 100) := by
  constructor
  · norm_num [tableFrequencyRows, percentageOf, totalDisplayedCalls, toFixed1,
      List.take, List.map, List.sum_cons, round_eq]
  · norm_num [tableFrequencyRows, percentageOf, totalDisplayedCalls, toFixed1,
      List.take, List.map, List.sum_cons, round_eq]

lemma percentage_rewrite (top : List TimerStat) (st : TimerStat) :
    percentageOf top st = (st.count : ℚ) * (100 / (totalDisplayedCalls top : ℚ)) := by
  unfold percentageOf
  rw [div_mul_eq_mul_div, mul_div_assoc]

lemma sum_percentages (S top : List TimerStat) :
    (S.map (percentageOf top)).sum
      = (S.map (fun st => (st.count : ℚ))).sum * (100 / (totalDisplayedCalls top : ℚ)) := by
  calc (S.map (percentageOf top)).sum
      = (S.map (fun st => (st.count : ℚ) * (100 / (totalDisplayedCalls top : ℚ)))).sum := by
        exact congrArg List.sum (List.map_congr_left (fun st _ => percentage_rewrite top st))
    _ = (S.map (fun st => (st.count : ℚ))).sum * (100 / (totalDisplayedCalls top : ℚ)) :=
        List.sum_map_mul_right S _ _

lemma cast_sum_counts (S : List TimerStat) :
    (S.map (fun st => (st.count : ℚ))).sum = (((S.map (fun st => st.count)).sum : Nat) : ℚ) := by
  rw [Nat.cast_list_sum, List.map_map]
  rfl

lemma sum_take_le_nat (l : List Nat) (n : Nat) : (l.take n).sum ≤ l.sum := by
  conv_rhs => rw [← List.take_append_drop n l]
  rw [List.sum_append]
  exact Nat.le_add_right _ _

/-- C8 amended: the denominator of every percentage is the total over the
WHOLE top-N list, and before rounding the percentages behave as claimed —
the frequency-analysis rows (first five entries) sum to at most 100 and
the full top-N percentages sum to exactly 100 whenever anything was
displayed; the rounded values, however, may exceed 100 in total (see the
counterexample).  With zero observed calls the displayed list is empty, so
no percentage is ever computed: no division by zero, no NaN, and no rows
rather than literal 0-percent rows. -/
theorem percentages_amended (top : List TimerStat)
    (hpos : ∀ st ∈ top, 1 ≤ st.count) :
    (tableFrequencyExact top).sum ≤ 100 ∧
    (top.map (percentageOf top)).sum ≤ 100 ∧
    (top ≠ [] → (top.map (percentageOf top)).sum = 100) ∧
    tableFrequencyRows [] = [] ∧
    jsonPercentages [] = [] := by
  cases top with
  | nil =>
    refine ⟨by simp [tableFrequencyExact], by simp, by simp, rfl, rfl⟩
  | cons b t =>
    have hT : 1 ≤ totalDisplayedCalls (b :: t) := by
      have hb : 1 ≤ b.count := hpos b (by simp)
      unfold totalDisplayedCalls
      rw [List.map_cons, List.sum_cons]
      omega
    have hT0 : ((totalDisplayedCalls (b :: t) : ℚ)) ≠ 0 := by
      have h1 : totalDisplayedCalls (b :: t) ≠ 0 := by omega
      exact_mod_cast h1
    have hsum_eq : ((b :: t).map (percentageOf (b :: t))).sum = 100 := by
      rw [sum_percentages, cast_sum_counts]
      have hcounts : ((b :: t).map (fun st => st.count)).sum
          = totalDisplayedCalls (b :: t) := rfl
      rw [hcounts]
      field_simp
    have htake : (tableFrequencyExact (b :: t)).sum ≤ 100 := by
      unfold tableFrequencyExact
      rw [sum_percentages ((b :: t).take 5) (b :: t), cast_sum_counts]
      have hle : (((b :: t).take 5).map (fun st => st.count)).sum
          ≤ totalDisplayedCalls (b :: t) := by
        unfold totalDisplayedCalls
        rw [List.map_take]
        exact sum_take_le_nat _ 5
      have hcast : (((((b :: t).take 5).map (fun st => st.count)).sum : Nat) : ℚ)
          ≤ (totalDisplayedCalls (b :: t) : ℚ) := by exact_mod_cast hle
      have hnn : (0 : ℚ) ≤ 100 / (totalDisplayedCalls (b :: t) : ℚ) := by positivity
      calc ((((((b :: t).take 5).map (fun st => st.count)).sum : Nat) : ℚ))
            * (100 / (totalDisplayedCalls (b :: t) : ℚ))
          ≤ (totalDisplayedCalls (b :: t) : ℚ)
            * (100 / (totalDisplayedCalls (b :: t) : ℚ)) :=
            mul_le_mul_of_nonneg_right hcast hnn
        _ = 100 := by field_simp
    exact ⟨htake, le_of_eq hsum_eq, fun _ => hsum_eq, rfl, rfl⟩

/-- Witness for the amended C8 at a concrete two-record top list with
counts 1 and 3: the exact five-row sum is at most 100 and the exact top-N
percentages sum to exactly 100. -/
theorem percentages_amended_witness :
    (tableFrequencyExact
        [{ count := 1, type := TimerType.setTimeout, signature := "x",
           stack := none, caller := "x" },
         { count := 3, type := TimerType.setInterval, signature := "y",
           stack := none, caller := "y" }]).sum ≤ 100 ∧
    (([{ count := 1, type := TimerType.setTimeout, signature := "x",
         stack := none, caller := "x" },
       { count := 3, type := TimerType.setInterval, signature := "y",
         stack := none, caller := "y" }] : List TimerStat).map
      (percentageOf
        [{ count := 1, type := TimerType.setTimeout, signature := "x",
           stack := none, caller := "x" },
         { count := 3, type := TimerType.setInterval, signature := "y",
           stack := none, caller := "y" }])).sum = 100 := by
  refine ⟨(percentages_amended _ (by decide)).1,
    (percentages_amended _ (by decide)).2.2.1 (by decide)⟩

/-! ### C9: relation between the two extraction variants -/

lemma scan_agree :
    ∀ (ls : List (List Char)),
      (∀ l ∈ ls, (jsTrim l).isEmpty = false ∧
        listStartsWith ['a', 't', ' '] (jsTrim l) = false) →
      cliScanLines ls = conScanLines ls := by
  intro ls
  induction ls with
  | nil => intro _; rfl
  | cons l t ih =>
    intro h
    have hl := h l (List.mem_cons_self l t)
    have ht : ∀ l2 ∈ t, (jsTrim l2).isEmpty = false ∧
        listStartsWith ['a', 't', ' '] (jsTrim l2) = false :=
      fun l2 hl2 => h l2 (List.mem_cons_of_mem l hl2)
    unfold cliScanLines conScanLines
    rw [if_neg (by simp [hl.1, hl.2])]
    cases findAtMatch (jsTrim l) with
    | some g => rfl
    | none => exact ih ht

lemma format_agree (g : MatchGroups) (h : (jsPop g.2.1).isEmpty = false) :
    cliFormat g = conFormat g := by
  unfold cliFormat conFormat
  have hbase : jsBasename g.2.1 = jsPop g.2.1 := by
    unfold jsBasename jsPop
    cases hgl : (splitOnChar '/' g.2.1).getLast? with
    | none =>
      unfold jsPop at h
      rw [hgl] at h
      simp at h
    | some last =>
      unfold jsPop at h
      rw [hgl] at h
      simp only [Option.getD_some] at h ⊢
      rw [if_neg (by simp [h])]
  rw [hbase]

/-- C9 amended: the two variants share the location regular expression and
the per-line scan, but not the skip filter or the sentinels.  On any trace
whose scanned lines are all nonempty after trimming and do not start with
`at ` (so the CLI filter skips nothing), and whose first match (if any)
has a nonempty final path segment, the two functions either return the
same signature or — when no scanned line matches — their two distinct
no-match sentinels.  On traces with ordinary `at `-prefixed frames they
genuinely disagree (see the counterexample), because the CLI filter skips
exactly the lines the console variant parses. -/
theorem extract_variants_agreement (s : String)
    (h1 : ∀ l ∈ (splitOnChar '\n' s.data).drop 1,
        (jsTrim l).isEmpty = false ∧
        listStartsWith ['a', 't', ' '] (jsTrim l) = false)
    (h2 : Option.all (fun g : MatchGroups => !(jsPop g.2.1).isEmpty)
        (conScanLines ((splitOnChar '\n' s.data).drop 1)) = true) :
    extractCallSiteSignature (some s) = extractCallSite (some s) ∨
    (extractCallSiteSignature (some s) = "<unknown call site>" ∧
     extractCallSite (some s) = "<unknown>") := by
  simp only [extractCallSiteSignature, extractCallSite]
  by_cases hemp : s.data.isEmpty = true
  · rw [if_pos hemp, if_pos hemp]
    exact Or.inl rfl
  · rw [if_neg hemp, if_neg hemp]
    rw [scan_agree _ h1]
    cases hscan : conScanLines ((splitOnChar '\n' s.data).drop 1) with
    | some g =>
      left
      rw [hscan] at h2
      have h3 : (jsPop g.2.1).isEmpty = false := by simpa using h2
      exact format_agree g h3
    | none =>
      right
      exact ⟨rfl, rfl⟩

/-- Witness for the amended C9: a trace whose only scanned line does not
start with `at ` is parsed identically by both variants. -/
theorem extract_variants_agreement_witness :
    extractCallSiteSignature (some "Error\nquat foo (a/b.js:3:4)")
      = extractCallSite (some "Error\nquat foo (a/b.js:3:4)") ∨
    (extractCallSiteSignature (some "Error\nquat foo (a/b.js:3:4)")
      = "<unknown call site>" ∧
     extractCallSite (some "Error\nquat foo (a/b.js:3:4)") = "<unknown>") :=
  extract_variants_agreement "Error\nquat foo (a/b.js:3:4)" (by decide) (by decide)
